import Mathlib

/-!
# Quizzy server engine — shallow embedding

A shallow embedding of the game-session engine of `src/server/src/index.ts`
(the socket.io quiz server).  JavaScript `Map`s are modelled as association
lists with JS-`Map` semantics (`set` updates in place preserving insertion
order, otherwise appends; iteration is in insertion order).  `setTimeout`
handles are modelled by a monotone counter; the set of pending timers is an
association list from handle to the scheduled callback.  Nondeterminism
(`Math.random` code generation, wall-clock timer firing order) is
externalised: the generated code is a parameter of `createGame`, and a timer
firing is an explicit `fire h` command.  A JavaScript runtime error in a
handler (the `TypeError` from reading a property of `undefined`) is modelled
by the handler returning `none`.
-/

namespace Quizzy

/-! ## JS `Map` as an association list -/

/-- `Map.get`: value at the first entry with the given key. -/
def mapGet {κ α : Type} [DecidableEq κ] : List (κ × α) → κ → Option α
  | [], _ => none
  | e :: rest, k => if e.1 = k then some e.2 else mapGet rest k

/-- `Map.has`. -/
def mapHas {κ α : Type} [DecidableEq κ] (m : List (κ × α)) (k : κ) : Bool :=
  (mapGet m k).isSome

/-- `Map.set`: update in place (keeping insertion order) if the key is
present, otherwise append. -/
def mapSet {κ α : Type} [DecidableEq κ] (m : List (κ × α)) (k : κ) (v : α) :
    List (κ × α) :=
  if mapHas m k then m.map (fun e => if e.1 = k then (k, v) else e)
  else m ++ [(k, v)]

/-- `Map.delete`. -/
def mapDelete {κ α : Type} [DecidableEq κ] : List (κ × α) → κ → List (κ × α)
  | [], _ => []
  | e :: rest, k =>
      if e.1 = k then mapDelete rest k else e :: mapDelete rest k

/-- `Array.from(m.values())`: values in insertion order. -/
def mapValues {κ α : Type} (m : List (κ × α)) : List α :=
  m.map (·.2)

/-! ## Data model (`index.ts` lines 21–47) -/

/-- `interface Player` -/
structure Player where
  id : String
  username : String
  score : Nat
deriving DecidableEq, Repr

/-- `interface Question`.  `correctAnswer` is an `Int` because it is compared
with a client-supplied answer index, which may be any number. -/
structure Question where
  id : String
  text : String
  options : List String
  correctAnswer : Int
  timeLimit : Nat
deriving DecidableEq, Repr

/-- `interface Quiz` -/
structure Quiz where
  id : String
  title : String
  questions : List Question
deriving DecidableEq, Repr

/-- A scheduled `setTimeout` callback.  The three timeouts of the server:
the round timer armed by `startQuestionTimer` (which captured the `question`
constant at scheduling time), the anonymous 3-second move-to-next-question
timeout inside the round timer's callback, and the anonymous 5-second
countdown timeout in the `startCountdown` handler.  The closures capture the
game object; since `activeGames` entries are never deleted, looking the game
up by its code at fire time coincides with the captured reference in every
trace in which the code is not re-generated by a colliding `createGame`. -/
inductive TimerKind where
  | reveal (gameId : String) (question : Question)
  | advance (gameId : String)
  | countdown (gameId : String)
deriving DecidableEq, Repr

/-- One entry of the `activeGames` map (`index.ts` lines 41–47).
`timer` holds the `setTimeout` handle stored in `game.timer`. -/
structure Game where
  players : List (String × Player)
  currentQuestion : Nat
  quiz : Quiz
  answers : List (String × Int)
  timer : Option Nat
deriving DecidableEq, Repr

/-- The whole server state: the `activeGames` registry plus the runtime's
pending-timeout table (handle ↦ callback) and the next fresh handle. -/
structure ServerState where
  activeGames : List (String × Game)
  pending : List (Nat × TimerKind)
  nextHandle : Nat
deriving DecidableEq, Repr

/-- Where an emitted event is delivered: `io.to(gameId).emit` broadcasts to
the room, `socket.emit` goes to the calling connection only. -/
inductive Target where
  | room (code : String)
  | caller
deriving DecidableEq, Repr

/-- The outbound socket events of the server. -/
inductive Event where
  | gameCreated (code : String)
  | error (msg : String)
  | playerJoined (id username : String) (score : Nat)
  | playerLeft (id : String)
  | scoreUpdate (playerId : String) (score : Nat)
  | revealAnswer (correctAnswer : Int) (correctPlayers : List String)
      (updatedPlayers : List Player)
  | gameOver (players : List Player)
  | newQuestion (question : Question) (timeLimit : Nat)
  | startCountdown
deriving DecidableEq, Repr

/-- A delivered event with its destination. -/
abbrev Emit := Target × Event

/-! ## `startQuestionTimer` (lines 49–82)

The function body up to arming the timeout; the callback itself is run by
`fireTimer` below when the armed timer fires. -/

/-- `startQuestionTimer(gameId)`: look the game up, read the current
question (return unchanged when the index is out of range), clear any timer
handle stored in `game.timer`, then arm a fresh timeout whose callback is
`TimerKind.reveal gameId question` and store its handle. -/
def startQuestionTimer (s : ServerState) (gameId : String) : ServerState :=
  match mapGet s.activeGames gameId with
  | none => s
  | some game =>
    match game.quiz.questions.get? game.currentQuestion with
    | none => s
    | some question =>
      let pending' :=
        match game.timer with
        | some h => mapDelete s.pending h
        | none => s.pending
      let h := s.nextHandle
      { s with
          activeGames :=
            mapSet s.activeGames gameId { game with timer := some h }
          pending := pending' ++ [(h, TimerKind.reveal gameId question)]
          nextHandle := h + 1 }

/-! ## The socket event handlers (lines 84–194) -/

/-- `createGame` handler (lines 87–97).  `Math.random().toString(36)
.substring(2, 8)` is externalised as the `code` parameter; the handler
installs a fresh game at that code unconditionally (`Map.set`). -/
def createGameCmd (s : ServerState) (code : String) (quiz : Quiz) :
    ServerState × List Emit :=
  ({ s with
      activeGames :=
        mapSet s.activeGames code
          { players := [], currentQuestion := 0, quiz := quiz,
            answers := [], timer := none } },
   [(Target.caller, Event.gameCreated code)])

/-- `joinGame` handler (lines 99–120). -/
def joinGameCmd (s : ServerState) (socketId gameId username : String) :
    ServerState × List Emit :=
  match mapGet s.activeGames gameId with
  | none => (s, [(Target.caller, Event.error "Game not found")])
  | some game =>
    let player : Player := { id := socketId, username := username, score := 0 }
    ({ s with
        activeGames :=
          mapSet s.activeGames gameId
            { game with players := mapSet game.players socketId player } },
     [(Target.room gameId, Event.playerJoined socketId username 0)])

/-- `submitAnswer` handler (lines 122–138).  The handler records the answer
with `game.answers.set` and only afterwards reads
`game.quiz.questions[game.currentQuestion].correctAnswer`; when the index is
out of range that read is a `TypeError` on `undefined`, modelled as `none`. -/
def submitAnswerCmd (s : ServerState) (socketId gameId : String)
    (answerIndex : Int) : Option (ServerState × List Emit) :=
  match mapGet s.activeGames gameId with
  | none => some (s, [])
  | some game =>
    match mapGet game.players socketId with
    | none => some (s, [])
    | some player =>
      if mapHas game.answers socketId then some (s, [])
      else
        let answers' := mapSet game.answers socketId answerIndex
        match game.quiz.questions.get? game.currentQuestion with
        | none => none
        | some currentQuestion =>
          if answerIndex = currentQuestion.correctAnswer then
            let player' := { player with score := player.score + 1000 }
            some
              ({ s with
                  activeGames :=
                    mapSet s.activeGames gameId
                      { game with
                          answers := answers'
                          players := mapSet game.players socketId player' } },
               [(Target.room gameId,
                 Event.scoreUpdate socketId player'.score)])
          else
            some
              ({ s with
                  activeGames :=
                    mapSet s.activeGames gameId
                      { game with answers := answers' } },
               [])

/-- `nextQuestion` handler (lines 140–168).  Reveal (when the current index
is in range — the `currentQuestion < questions.length` guard fused with the
`questions[currentQuestion]` access as `get?`), clear the answers, increment
the index, then either emit `gameOver` and return — leaving `game.timer` and
the pending timeout table untouched — or emit `newQuestion` and call
`startQuestionTimer`. -/
def nextQuestionCmd (s : ServerState) (gameId : String) :
    ServerState × List Emit :=
  match mapGet s.activeGames gameId with
  | none => (s, [])
  | some game =>
    let revealPart : List Emit × Game :=
      match game.quiz.questions.get? game.currentQuestion with
      | some currentQuestion =>
        let correctPlayers :=
          (game.answers.filter
            (fun e => e.2 = currentQuestion.correctAnswer)).map (·.1)
        ([(Target.room gameId,
           Event.revealAnswer currentQuestion.correctAnswer correctPlayers
             (mapValues game.players))],
         { game with answers := [] })
      | none => ([], game)
    let revealEvs := revealPart.1
    let game1 := revealPart.2
    let game2 := { game1 with currentQuestion := game1.currentQuestion + 1 }
    let s2 := { s with activeGames := mapSet s.activeGames gameId game2 }
    match game2.quiz.questions.get? game2.currentQuestion with
    | some question =>
      (startQuestionTimer s2 gameId,
       revealEvs ++
         [(Target.room gameId, Event.newQuestion question question.timeLimit)])
    | none =>
      (s2, revealEvs ++ [(Target.room gameId,
        Event.gameOver (mapValues game2.players))])

/-- `startCountdown` handler (lines 170–184): emit `startCountdown` to the
room and arm the anonymous 5-second timeout (not stored in `game.timer`). -/
def startCountdownCmd (s : ServerState) (gameId : String) :
    ServerState × List Emit :=
  match mapGet s.activeGames gameId with
  | none => (s, [])
  | some _ =>
    ({ s with
        pending := s.pending ++ [(s.nextHandle, TimerKind.countdown gameId)]
        nextHandle := s.nextHandle + 1 },
     [(Target.room gameId, Event.startCountdown)])

/-- `disconnect` handler (lines 186–194): for every game that has the
socket as a player, delete it and emit `playerLeft` to that room, in
registry insertion order. -/
def disconnectCmd (s : ServerState) (socketId : String) :
    ServerState × List Emit :=
  ({ s with
      activeGames :=
        s.activeGames.map (fun e =>
          if mapHas e.2.players socketId then
            (e.1, { e.2 with players := mapDelete e.2.players socketId })
          else e) },
   (s.activeGames.filter (fun e => mapHas e.2.players socketId)).map
     (fun e => (Target.room e.1, Event.playerLeft socketId)))

/-! ## Timer callbacks -/

/-- Body of the timeout armed by `startQuestionTimer` (lines 56–81 up to the
inner `setTimeout`): reveal the answer of the *captured* question against
the answers recorded now, clear the answers, and arm the anonymous 3-second
move-to-next-question timeout (not stored in `game.timer`). -/
def runReveal (s : ServerState) (gameId : String) (question : Question) :
    ServerState × List Emit :=
  match mapGet s.activeGames gameId with
  | none => (s, [])
  | some game =>
    let correctPlayers :=
      (game.answers.filter (fun e => e.2 = question.correctAnswer)).map (·.1)
    let h := s.nextHandle
    ({ s with
        activeGames := mapSet s.activeGames gameId { game with answers := [] }
        pending := s.pending ++ [(h, TimerKind.advance gameId)]
        nextHandle := h + 1 },
     [(Target.room gameId,
       Event.revealAnswer question.correctAnswer correctPlayers
         (mapValues game.players))])

/-- Body of the anonymous 3-second timeout (lines 68–80): increment the
index, then either emit `gameOver` or emit `newQuestion` and restart the
round timer. -/
def runAdvance (s : ServerState) (gameId : String) :
    ServerState × List Emit :=
  match mapGet s.activeGames gameId with
  | none => (s, [])
  | some game =>
    let game' := { game with currentQuestion := game.currentQuestion + 1 }
    let s1 := { s with activeGames := mapSet s.activeGames gameId game' }
    match game'.quiz.questions.get? game'.currentQuestion with
    | some nextQuestion =>
      (startQuestionTimer s1 gameId,
       [(Target.room gameId,
         Event.newQuestion nextQuestion nextQuestion.timeLimit)])
    | none =>
      (s1, [(Target.room gameId, Event.gameOver (mapValues game'.players))])

/-- Body of the anonymous 5-second countdown timeout (lines 175–183): if the
index is past the last question do nothing, otherwise emit `newQuestion` for
the current question and start the round timer. -/
def runCountdown (s : ServerState) (gameId : String) :
    ServerState × List Emit :=
  match mapGet s.activeGames gameId with
  | none => (s, [])
  | some game =>
    match game.quiz.questions.get? game.currentQuestion with
    | some question =>
      (startQuestionTimer s gameId,
       [(Target.room gameId, Event.newQuestion question question.timeLimit)])
    | none => (s, [])

/-- A pending timeout fires: it is removed from the pending table and its
callback runs.  Firing a handle that is not pending is a no-op. -/
def fireTimer (s : ServerState) (h : Nat) : ServerState × List Emit :=
  match mapGet s.pending h with
  | none => (s, [])
  | some kind =>
    let s1 := { s with pending := mapDelete s.pending h }
    match kind with
    | TimerKind.reveal gameId question => runReveal s1 gameId question
    | TimerKind.advance gameId => runAdvance s1 gameId
    | TimerKind.countdown gameId => runCountdown s1 gameId

/-! ## Command-level semantics -/

/-- The inbound commands of the engine, plus the internal `fire` command by
which the runtime delivers a due timeout. -/
inductive Command where
  | createGame (code : String) (quiz : Quiz)
  | joinGame (socketId gameId username : String)
  | submitAnswer (socketId gameId : String) (answerIndex : Int)
  | nextQuestion (gameId : String)
  | startCountdown (gameId : String)
  | disconnect (socketId : String)
  | fire (handle : Nat)
deriving DecidableEq, Repr

/-- One command dispatched to its handler.  `none` is a handler crash
(only `submitAnswer` can crash). -/
def step (s : ServerState) : Command → Option (ServerState × List Emit)
  | Command.createGame code quiz => some (createGameCmd s code quiz)
  | Command.joinGame socketId gameId username =>
      some (joinGameCmd s socketId gameId username)
  | Command.submitAnswer socketId gameId answerIndex =>
      submitAnswerCmd s socketId gameId answerIndex
  | Command.nextQuestion gameId => some (nextQuestionCmd s gameId)
  | Command.startCountdown gameId => some (startCountdownCmd s gameId)
  | Command.disconnect socketId => some (disconnectCmd s socketId)
  | Command.fire h => some (fireTimer s h)

/-- Run a list of commands, accumulating all emitted events; `none` as soon
as any handler crashes. -/
def runCommands (s : ServerState) : List Command → Option (ServerState × List Emit)
  | [] => some (s, [])
  | c :: cs =>
    match step s c with
    | none => none
    | some (s1, evs) =>
      match runCommands s1 cs with
      | none => none
      | some (s2, evs2) => some (s2, evs ++ evs2)

/-- The server starts with no games and no pending timeouts. -/
def initState : ServerState :=
  { activeGames := [], pending := [], nextHandle := 0 }

/-! ## Event and command classifiers -/

/-- Is this a `revealAnswer` broadcast? -/
def isRevealEmit (e : Emit) : Bool :=
  match e.2 with
  | Event.revealAnswer _ _ _ => true
  | _ => false

/-- Is this a `gameOver` broadcast? -/
def isGameOverEmit (e : Emit) : Bool :=
  match e.2 with
  | Event.gameOver _ => true
  | _ => false

/-- Is this a host-issued `nextQuestion` command? -/
def isNextQuestionCommand (c : Command) : Bool :=
  match c with
  | Command.nextQuestion _ => true
  | _ => false

/-- A sample question whose correct answer is option 2. -/
def sampleQ0 : Question :=
  { id := "q0", text := "2+2?", options := ["1", "2", "3", "4"],
    correctAnswer := 2, timeLimit := 10 }

/-- A second sample question whose correct answer is option 0. -/
def sampleQ1 : Question :=
  { id := "q1", text := "cap?", options := ["a", "b", "c", "d"],
    correctAnswer := 0, timeLimit := 15 }

/-- A one-question quiz. -/
def sampleQuiz1 : Quiz := { id := "z1", title := "Sample", questions := [sampleQ0] }

/-- A two-question quiz. -/
def sampleQuiz2 : Quiz :=
  { id := "z2", title := "Sample2", questions := [sampleQ0, sampleQ1] }

/-- Host runs a two-question game and forces `nextQuestion` twice while the
round timer armed for the running question is still pending, then the
runtime delivers the timeouts that were left armed (the round timer handle 2
that the game-over path never cleared, and the 3-second follow-up handle 3
it schedules). -/
def twoNextTrace : List Command :=
  [Command.createGame "g1" sampleQuiz2,
   Command.joinGame "p1" "g1" "alice",
   Command.startCountdown "g1",
   Command.fire 0,
   Command.nextQuestion "g1",
   Command.nextQuestion "g1",
   Command.fire 2,
   Command.fire 3]

/-- Create a one-question game, join, and advance straight to game over. -/
def postGameOverTrace : List Command :=
  [Command.createGame "g1" sampleQuiz1,
   Command.joinGame "p1" "g1" "alice",
   Command.nextQuestion "g1"]

/-- Join, answer correctly (1000 points), then join again. -/
def rejoinTrace : List Command :=
  [Command.createGame "g1" sampleQuiz1,
   Command.joinGame "p1" "g1" "alice",
   Command.submitAnswer "p1" "g1" 2,
   Command.joinGame "p1" "g1" "alice"]

/-- Create a session at code "abc123" with one player who has scored. -/
def collideTrace : List Command :=
  [Command.createGame "abc123" sampleQuiz1,
   Command.joinGame "p1" "abc123" "alice",
   Command.submitAnswer "p1" "abc123" 2]

/-- Create, join, start the countdown, and let it fire: question 0 is now
live and its round timer (handle 1) is armed. -/
def midGameTrace : List Command :=
  [Command.createGame "g1" sampleQuiz2,
   Command.joinGame "p1" "g1" "alice",
   Command.startCountdown "g1",
   Command.fire 0]

/-- A joined player with no score yet. -/
def samplePlayer : Player := { id := "p1", username := "alice", score := 0 }

/-- A one-question game in its initial (pre-start) state with one player. -/
def sampleGame : Game :=
  { players := [("p1", samplePlayer)], currentQuestion := 0,
    quiz := sampleQuiz1, answers := [], timer := none }

/-- A server holding just `sampleGame` under code "g1". -/
def sampleState : ServerState :=
  { activeGames := [("g1", sampleGame)], pending := [], nextHandle := 0 }

/-- A two-question game on question 0 with a recorded (correct) answer. -/
def sampleGame2 : Game :=
  { players := [("p1", samplePlayer)], currentQuestion := 0,
    quiz := sampleQuiz2, answers := [("p1", 2)], timer := none }

/-- A server holding just `sampleGame2` under code "g1". -/
def sampleState2 : ServerState :=
  { activeGames := [("g1", sampleGame2)], pending := [], nextHandle := 5 }

/-- `sampleState2` with the round timer for question 0 pending as handle 7. -/
def revealPendingState : ServerState :=
  { activeGames := [("g1", sampleGame2)],
    pending := [(7, TimerKind.reveal "g1" sampleQ0)], nextHandle := 8 }

/-- `sampleState2` with the 3-second advance timeout pending as handle 7. -/
def advancePendingState : ServerState :=
  { activeGames := [("g1", sampleGame2)],
    pending := [(7, TimerKind.advance "g1")], nextHandle := 8 }

/-! ## Lemmas about the `Map` operations -/

theorem mapGet_update_eq {κ α : Type} [DecidableEq κ] (m : List (κ × α))
    (k : κ) (v : α) :
    mapGet (m.map (fun e => if e.1 = k then (k, v) else e)) k =
      if mapHas m k then some v else none := by
  induction m with
  | nil => rfl
  | cons e rest ih =>
    by_cases he : e.1 = k
    · simp [mapGet, mapHas, he]
    · simpa [mapGet, mapHas, he] using ih

theorem mapGet_update_ne {κ α : Type} [DecidableEq κ] (m : List (κ × α))
    (k k' : κ) (v : α) (h : k' ≠ k) :
    mapGet (m.map (fun e => if e.1 = k then (k, v) else e)) k' = mapGet m k' := by
  induction m with
  | nil => rfl
  | cons e rest ih =>
    simp only [List.map_cons]
    by_cases he : e.1 = k
    · rw [if_pos he]
      have h1 : ¬((k, v).1 = k') := fun hh => h hh.symm
      have h2 : ¬(e.1 = k') := by rw [he]; exact h1
      simp only [mapGet]
      rw [if_neg h1, if_neg h2, ih]
    · rw [if_neg he]
      simp only [mapGet]
      by_cases he' : e.1 = k'
      · rw [if_pos he', if_pos he']
      · rw [if_neg he', if_neg he', ih]

theorem mapGet_append {κ α : Type} [DecidableEq κ] (m₁ m₂ : List (κ × α))
    (k : κ) :
    mapGet (m₁ ++ m₂) k =
      match mapGet m₁ k with
      | some v => some v
      | none => mapGet m₂ k := by
  induction m₁ with
  | nil => rfl
  | cons e rest ih =>
    by_cases he : e.1 = k
    · simp [mapGet, he]
    · simp [mapGet, he, ih]

/-- `Map.set` then `Map.get`. -/
theorem mapGet_set {κ α : Type} [DecidableEq κ] (m : List (κ × α))
    (k k' : κ) (v : α) :
    mapGet (mapSet m k v) k' = if k' = k then some v else mapGet m k' := by
  unfold mapSet
  by_cases hh : mapHas m k
  · rw [if_pos hh]
    by_cases hk : k' = k
    · subst hk
      rw [mapGet_update_eq, hh, if_pos rfl, if_pos rfl]
    · rw [mapGet_update_ne _ _ _ _ hk, if_neg hk]
  · rw [if_neg hh, mapGet_append]
    have hnone : mapGet m k = none := by
      unfold mapHas at hh
      exact Option.not_isSome_iff_eq_none.mp hh
    by_cases hk : k' = k
    · subst hk
      rw [hnone]
      simp [mapGet]
    · cases hmk : mapGet m k' with
      | some w => simp [hmk, hk]
      | none =>
        simp only [hmk, if_neg hk]
        simp only [mapGet]
        rw [if_neg (fun h : k = k' => hk h.symm)]

theorem mapGet_set_self {κ α : Type} [DecidableEq κ] (m : List (κ × α))
    (k : κ) (v : α) : mapGet (mapSet m k v) k = some v := by
  rw [mapGet_set, if_pos rfl]

theorem mapGet_set_ne {κ α : Type} [DecidableEq κ] (m : List (κ × α))
    (k k' : κ) (v : α) (h : k' ≠ k) : mapGet (mapSet m k v) k' = mapGet m k' := by
  rw [mapGet_set, if_neg h]

/-- `Map.delete` then `Map.get`. -/
theorem mapGet_delete {κ α : Type} [DecidableEq κ] (m : List (κ × α))
    (k k' : κ) :
    mapGet (mapDelete m k) k' = if k' = k then none else mapGet m k' := by
  induction m with
  | nil => simp [mapDelete, mapGet]
  | cons e rest ih =>
    simp only [mapDelete]
    by_cases he : e.1 = k
    · rw [if_pos he, ih]
      by_cases hk : k' = k
      · rw [if_pos hk, if_pos hk]
      · rw [if_neg hk, if_neg hk]
        have h2 : ¬(e.1 = k') := by
          rw [he]; exact fun hh => hk hh.symm
        conv_rhs => simp only [mapGet]
        rw [if_neg h2]
    · rw [if_neg he]
      simp only [mapGet]
      by_cases he' : e.1 = k'
      · have hk : ¬(k' = k) := fun hh => he (he'.trans hh)
        rw [if_pos he', if_neg hk, if_pos he']
      · rw [if_neg he', ih]
        by_cases hk : k' = k
        · rw [if_pos hk, if_pos hk]
        · rw [if_neg hk, if_neg hk, if_neg he']

/-- `Map.get` across an entry-wise value transformation. -/
theorem mapGet_map_entry {κ α : Type} [DecidableEq κ] (m : List (κ × α))
    (F : α → α) (k : κ) :
    mapGet (m.map (fun e => (e.1, F e.2))) k = (mapGet m k).map F := by
  induction m with
  | nil => rfl
  | cons e rest ih =>
    by_cases he : e.1 = k
    · simp [mapGet, he]
    · simp [mapGet, he, ih]

/-! ## Structural lemmas about the handlers -/

/-- Looking a game up after `startQuestionTimer`: only the `timer` field of
the targeted game can change. -/
theorem startQuestionTimer_lookup (s : ServerState) (gid gid' : String)
    (g' : Game)
    (hg' : mapGet (startQuestionTimer s gid).activeGames gid' = some g') :
    ∃ g, mapGet s.activeGames gid' = some g ∧ g'.players = g.players ∧
      g'.currentQuestion = g.currentQuestion ∧ g'.answers = g.answers ∧
      g'.quiz = g.quiz := by
  unfold startQuestionTimer at hg'
  cases hmg : mapGet s.activeGames gid with
  | none =>
    rw [hmg] at hg'
    exact ⟨g', hg', rfl, rfl, rfl, rfl⟩
  | some game =>
    rw [hmg] at hg'
    dsimp only at hg'
    cases hq : game.quiz.questions.get? game.currentQuestion with
    | none =>
      rw [hq] at hg'
      exact ⟨g', hg', rfl, rfl, rfl, rfl⟩
    | some q =>
      rw [hq] at hg'
      dsimp only at hg'
      rw [mapGet_set] at hg'
      by_cases hgid : gid' = gid
      · rw [if_pos hgid] at hg'
        refine ⟨game, by rw [hgid]; exact hmg, ?_⟩
        cases hg'.symm
        exact ⟨rfl, rfl, rfl, rfl⟩
      · rw [if_neg hgid] at hg'
        exact ⟨g', hg', rfl, rfl, rfl, rfl⟩

/-- Looking a game up after a `mapSet` that replaced one game by a game with
the same players. -/
theorem lookup_set_preserving (gs : List (String × Game))
    (gid2 gid : String) (game game2 g' : Game)
    (hmg : mapGet gs gid2 = some game)
    (hpl : game2.players = game.players)
    (hg' : mapGet (mapSet gs gid2 game2) gid = some g') :
    ∃ g, mapGet gs gid = some g ∧ g'.players = g.players := by
  rw [mapGet_set] at hg'
  by_cases hgid : gid = gid2
  · rw [if_pos hgid] at hg'
    refine ⟨game, by rw [hgid]; exact hmg, ?_⟩
    cases hg'.symm
    exact hpl
  · rw [if_neg hgid] at hg'
    exact ⟨g', hg', rfl⟩

/-- Looking a game up after the `disconnect` handler's sweep of the
registry. -/
theorem disconnect_lookup (gs : List (String × Game)) (sid gid : String)
    (g' : Game)
    (h : mapGet (gs.map (fun e =>
        if mapHas e.2.players sid then
          (e.1, { e.2 with players := mapDelete e.2.players sid })
        else e)) gid = some g') :
    ∃ g, mapGet gs gid = some g ∧
      g' = (if mapHas g.players sid then
              { g with players := mapDelete g.players sid }
            else g) := by
  induction gs with
  | nil => cases h
  | cons e rest ih =>
    simp only [List.map_cons] at h
    by_cases hhas : mapHas e.2.players sid
    · rw [if_pos hhas] at h
      simp only [mapGet] at h ⊢
      by_cases he : e.1 = gid
      · rw [if_pos he] at h ⊢
        exact ⟨e.2, rfl, by rw [if_pos hhas]; exact (Option.some.inj h).symm⟩
      · rw [if_neg he] at h ⊢
        exact ih h
    · rw [if_neg hhas] at h
      simp only [mapGet] at h ⊢
      by_cases he : e.1 = gid
      · rw [if_pos he] at h ⊢
        exact ⟨e.2, rfl, by rw [if_neg hhas]; exact (Option.some.inj h).symm⟩
      · rw [if_neg he] at h ⊢
        exact ih h

/-- Master lemma: how one dispatched command can change the players map of
any one game.  Either the command is a `createGame` that (re)installed a
fresh empty game under this code, or the game already existed and its
players map is unchanged, extended/overwritten by a `joinGame`, score-bumped
by a correct `submitAnswer`, or swept by a `disconnect`. -/
theorem step_players (s : ServerState) (c : Command) (s' : ServerState)
    (evs : List Emit) (gid : String) (g' : Game)
    (hstep : step s c = some (s', evs))
    (hg' : mapGet s'.activeGames gid = some g') :
    (∃ quiz, c = Command.createGame gid quiz ∧ g'.players = []) ∨
    ∃ g, mapGet s.activeGames gid = some g ∧
      (g'.players = g.players ∨
       (∃ sid un, c = Command.joinGame sid gid un ∧
         g'.players =
           mapSet g.players sid { id := sid, username := un, score := 0 }) ∨
       (∃ sid i pl, c = Command.submitAnswer sid gid i ∧
         mapGet g.players sid = some pl ∧
         g'.players =
           mapSet g.players sid { pl with score := pl.score + 1000 }) ∨
       (∃ sid, c = Command.disconnect sid ∧
         g'.players = if mapHas g.players sid then mapDelete g.players sid
                      else g.players)) := by
  cases c with
  | createGame code quiz =>
    simp only [step, createGameCmd] at hstep
    injection hstep with h
    injection h with h1 h2
    subst h1
    dsimp only at hg'
    rw [mapGet_set] at hg'
    by_cases hgid : gid = code
    · rw [if_pos hgid] at hg'
      left
      refine ⟨quiz, by rw [hgid], ?_⟩
      cases hg'.symm
      rfl
    · rw [if_neg hgid] at hg'
      exact Or.inr ⟨g', hg', Or.inl rfl⟩
  | joinGame sid gid2 un =>
    simp only [step, joinGameCmd] at hstep
    cases hmg : mapGet s.activeGames gid2 with
    | none =>
      rw [hmg] at hstep
      injection hstep with h
      injection h with h1 h2
      subst h1
      exact Or.inr ⟨g', hg', Or.inl rfl⟩
    | some game =>
      rw [hmg] at hstep
      dsimp only at hstep
      injection hstep with h
      injection h with h1 h2
      subst h1
      dsimp only at hg'
      rw [mapGet_set] at hg'
      by_cases hgid : gid = gid2
      · rw [if_pos hgid] at hg'
        subst hgid
        refine Or.inr ⟨game, hmg, Or.inr (Or.inl ⟨sid, un, rfl, ?_⟩)⟩
        cases hg'.symm
        rfl
      · rw [if_neg hgid] at hg'
        exact Or.inr ⟨g', hg', Or.inl rfl⟩
  | submitAnswer sid gid2 i =>
    simp only [step, submitAnswerCmd] at hstep
    cases hmg : mapGet s.activeGames gid2 with
    | none =>
      rw [hmg] at hstep
      injection hstep with h
      injection h with h1 h2
      subst h1
      exact Or.inr ⟨g', hg', Or.inl rfl⟩
    | some game =>
      rw [hmg] at hstep
      dsimp only at hstep
      cases hpl : mapGet game.players sid with
      | none =>
        rw [hpl] at hstep
        injection hstep with h
        injection h with h1 h2
        subst h1
        exact Or.inr ⟨g', hg', Or.inl rfl⟩
      | some player =>
        rw [hpl] at hstep
        dsimp only at hstep
        by_cases hans : mapHas game.answers sid
        · rw [if_pos hans] at hstep
          injection hstep with h
          injection h with h1 h2
          subst h1
          exact Or.inr ⟨g', hg', Or.inl rfl⟩
        · rw [if_neg hans] at hstep
          cases hq : game.quiz.questions.get? game.currentQuestion with
          | none =>
            rw [hq] at hstep
            cases hstep
          | some q =>
            rw [hq] at hstep
            dsimp only at hstep
            by_cases hcorr : i = q.correctAnswer
            · rw [if_pos hcorr] at hstep
              injection hstep with h
              injection h with h1 h2
              subst h1
              dsimp only at hg'
              rw [mapGet_set] at hg'
              by_cases hgid : gid = gid2
              · rw [if_pos hgid] at hg'
                subst hgid
                refine Or.inr ⟨game, hmg,
                  Or.inr (Or.inr (Or.inl ⟨sid, i, player, rfl, hpl, ?_⟩))⟩
                cases hg'.symm
                rfl
              · rw [if_neg hgid] at hg'
                exact Or.inr ⟨g', hg', Or.inl rfl⟩
            · rw [if_neg hcorr] at hstep
              injection hstep with h
              injection h with h1 h2
              subst h1
              dsimp only at hg'
              rw [mapGet_set] at hg'
              by_cases hgid : gid = gid2
              · rw [if_pos hgid] at hg'
                subst hgid
                refine Or.inr ⟨game, hmg, Or.inl ?_⟩
                cases hg'.symm
                rfl
              · rw [if_neg hgid] at hg'
                exact Or.inr ⟨g', hg', Or.inl rfl⟩
  | nextQuestion gid2 =>
    simp only [step, nextQuestionCmd] at hstep
    cases hmg : mapGet s.activeGames gid2 with
    | none =>
      rw [hmg] at hstep
      injection hstep with h
      injection h with h1 h2
      subst h1
      exact Or.inr ⟨g', hg', Or.inl rfl⟩
    | some game =>
      rw [hmg] at hstep
      dsimp only at hstep
      cases hq1 : game.quiz.questions.get? game.currentQuestion with
      | some cq =>
        rw [hq1] at hstep
        dsimp only at hstep
        cases hq2 : game.quiz.questions.get? (game.currentQuestion + 1) with
        | some q2 =>
          rw [hq2] at hstep
          injection hstep with h
          injection h with h1 h2
          subst h1
          obtain ⟨gmid, hgmid, hplmid⟩ := startQuestionTimer_lookup _ _ _ _ hg'
          dsimp only at hgmid
          obtain ⟨g0, hg0, hplg0⟩ :=
            lookup_set_preserving s.activeGames gid2 gid game
              { game with answers := ([] : List (String × Int)),
                          currentQuestion := game.currentQuestion + 1 } gmid
              hmg rfl hgmid
          exact Or.inr ⟨g0, hg0, Or.inl (hplmid.1.trans hplg0)⟩
        | none =>
          rw [hq2] at hstep
          injection hstep with h
          injection h with h1 h2
          subst h1
          dsimp only at hg'
          obtain ⟨g0, hg0, hplg0⟩ :=
            lookup_set_preserving s.activeGames gid2 gid game
              { game with answers := ([] : List (String × Int)),
                          currentQuestion := game.currentQuestion + 1 } g'
              hmg rfl hg'
          exact Or.inr ⟨g0, hg0, Or.inl hplg0⟩
      | none =>
        rw [hq1] at hstep
        dsimp only at hstep
        cases hq2 : game.quiz.questions.get? (game.currentQuestion + 1) with
        | some q2 =>
          rw [hq2] at hstep
          injection hstep with h
          injection h with h1 h2
          subst h1
          obtain ⟨gmid, hgmid, hplmid⟩ := startQuestionTimer_lookup _ _ _ _ hg'
          dsimp only at hgmid
          obtain ⟨g0, hg0, hplg0⟩ :=
            lookup_set_preserving s.activeGames gid2 gid game
              { game with currentQuestion := game.currentQuestion + 1 } gmid
              hmg rfl hgmid
          exact Or.inr ⟨g0, hg0, Or.inl (hplmid.1.trans hplg0)⟩
        | none =>
          rw [hq2] at hstep
          injection hstep with h
          injection h with h1 h2
          subst h1
          dsimp only at hg'
          obtain ⟨g0, hg0, hplg0⟩ :=
            lookup_set_preserving s.activeGames gid2 gid game
              { game with currentQuestion := game.currentQuestion + 1 } g'
              hmg rfl hg'
          exact Or.inr ⟨g0, hg0, Or.inl hplg0⟩
  | startCountdown gid2 =>
    simp only [step, startCountdownCmd] at hstep
    cases hmg : mapGet s.activeGames gid2 with
    | none =>
      rw [hmg] at hstep
      injection hstep with h
      injection h with h1 h2
      subst h1
      exact Or.inr ⟨g', hg', Or.inl rfl⟩
    | some game =>
      rw [hmg] at hstep
      injection hstep with h
      injection h with h1 h2
      subst h1
      exact Or.inr ⟨g', hg', Or.inl rfl⟩
  | disconnect sid =>
    simp only [step, disconnectCmd] at hstep
    injection hstep with h
    injection h with h1 h2
    subst h1
    dsimp only at hg'
    obtain ⟨g, hg, hform⟩ := disconnect_lookup s.activeGames sid gid g' hg'
    refine Or.inr ⟨g, hg, Or.inr (Or.inr (Or.inr ⟨sid, rfl, ?_⟩))⟩
    rw [hform]
    split <;> rfl
  | fire hdl =>
    simp only [step, fireTimer] at hstep
    cases hpend : mapGet s.pending hdl with
    | none =>
      rw [hpend] at hstep
      injection hstep with h
      injection h with h1 h2
      subst h1
      exact Or.inr ⟨g', hg', Or.inl rfl⟩
    | some kind =>
      rw [hpend] at hstep
      dsimp only at hstep
      cases kind with
      | reveal gid2 q =>
        simp only [runReveal] at hstep
        cases hmg : mapGet s.activeGames gid2 with
        | none =>
          rw [hmg] at hstep
          injection hstep with h
          injection h with h1 h2
          subst h1
          exact Or.inr ⟨g', hg', Or.inl rfl⟩
        | some game =>
          rw [hmg] at hstep
          dsimp only at hstep
          injection hstep with h
          injection h with h1 h2
          subst h1
          dsimp only at hg'
          obtain ⟨g0, hg0, hplg0⟩ :=
            lookup_set_preserving s.activeGames gid2 gid game
              { game with answers := ([] : List (String × Int)) } g' hmg rfl hg'
          exact Or.inr ⟨g0, hg0, Or.inl hplg0⟩
      | advance gid2 =>
        simp only [runAdvance] at hstep
        cases hmg : mapGet s.activeGames gid2 with
        | none =>
          rw [hmg] at hstep
          injection hstep with h
          injection h with h1 h2
          subst h1
          exact Or.inr ⟨g', hg', Or.inl rfl⟩
        | some game =>
          rw [hmg] at hstep
          dsimp only at hstep
          cases hq2 : game.quiz.questions.get? (game.currentQuestion + 1) with
          | some q2 =>
            rw [hq2] at hstep
            injection hstep with h
            injection h with h1 h2
            subst h1
            obtain ⟨gmid, hgmid, hplmid⟩ := startQuestionTimer_lookup _ _ _ _ hg'
            dsimp only at hgmid
            obtain ⟨g0, hg0, hplg0⟩ :=
              lookup_set_preserving s.activeGames gid2 gid game
                { game with currentQuestion := game.currentQuestion + 1 } gmid
                hmg rfl hgmid
            exact Or.inr ⟨g0, hg0, Or.inl (hplmid.1.trans hplg0)⟩
          | none =>
            rw [hq2] at hstep
            injection hstep with h
            injection h with h1 h2
            subst h1
            dsimp only at hg'
            obtain ⟨g0, hg0, hplg0⟩ :=
              lookup_set_preserving s.activeGames gid2 gid game
                { game with currentQuestion := game.currentQuestion + 1 } g'
                hmg rfl hg'
            exact Or.inr ⟨g0, hg0, Or.inl hplg0⟩
      | countdown gid2 =>
        simp only [runCountdown] at hstep
        cases hmg : mapGet s.activeGames gid2 with
        | none =>
          rw [hmg] at hstep
          injection hstep with h
          injection h with h1 h2
          subst h1
          exact Or.inr ⟨g', hg', Or.inl rfl⟩
        | some game =>
          rw [hmg] at hstep
          dsimp only at hstep
          cases hq1 : game.quiz.questions.get? game.currentQuestion with
          | some q1 =>
            rw [hq1] at hstep
            injection hstep with h
            injection h with h1 h2
            subst h1
            obtain ⟨g0, hg0, hplg0, _⟩ := startQuestionTimer_lookup _ _ _ _ hg'
            exact Or.inr ⟨g0, hg0, Or.inl hplg0⟩
          | none =>
            rw [hq1] at hstep
            injection hstep with h
            injection h with h1 h2
            subst h1
            exact Or.inr ⟨g', hg', Or.inl rfl⟩

/-- Claim C1.  The claim states that at most one round timer is pending per
session and that after N forced `nextQuestion` commands exactly N
`revealAnswer` events are emitted, with no stale timer firing a duplicate
reveal or advance.  The code violates this: in `twoNextTrace` the host
issues exactly 2 `nextQuestion` commands (each while the natural round timer
is pending), yet the session receives 3 `revealAnswer` and 2 `gameOver`
events, because the game-over path of the `nextQuestion` handler returns
without clearing `game.timer`, so the stale round timer later fires a
duplicate reveal and then a duplicate advance. -/
theorem stale_round_timer_fires_duplicate_reveal :
    twoNextTrace.countP isNextQuestionCommand = 2 ∧
    (runCommands initState twoNextTrace).map
        (fun r => (r.2.countP isRevealEmit, r.2.countP isGameOverEmit)) =
      some (3, 2) := by
  constructor
  · rfl
  · rfl

/-- Claim C5.  The claim states that a `submitAnswer` addressed to an
existing session with no question active (in particular after game over) is
silently ignored with no state change, no event and no crash.  The code
instead records the answer and then crashes with a `TypeError` reading
`correctAnswer` of `undefined`: after `postGameOverTrace` the session "g1"
exists with `currentQuestion` equal to the number of questions (no question
active), player "p1" known and no recorded answer, and the subsequent
`submitAnswer` makes the handler crash (`none`). -/
theorem submitAnswer_after_gameOver_crashes :
    (runCommands initState postGameOverTrace).map
        (fun r => (mapGet r.1.activeGames "g1").map
          (fun g => (g.currentQuestion, g.quiz.questions.length,
                     mapHas g.players "p1", g.answers))) =
      some (some (1, 1, true, [])) ∧
    runCommands initState
        (postGameOverTrace ++ [Command.submitAnswer "p1" "g1" 0]) = none := by
  constructor
  · rfl
  · rfl

/-- Claim C6, counterexample.  The claim states that a player's recorded
score never decreases across any sequence of commands including `joinGame`.
In `rejoinTrace` player "p1" has score 1000 after answering correctly, and
score 0 after re-issuing `joinGame`, a strict decrease. -/
theorem rejoin_decreases_score_counterexample :
    (runCommands initState (rejoinTrace.take 3)).map
        (fun r => (mapGet r.1.activeGames "g1").map
          (fun g => (mapGet g.players "p1").map Player.score)) =
      some (some (some 1000)) ∧
    (runCommands initState rejoinTrace).map
        (fun r => (mapGet r.1.activeGames "g1").map
          (fun g => (mapGet g.players "p1").map Player.score)) =
      some (some (some 0)) := by
  constructor
  · rfl
  · rfl

/-- Claim C6, amended.  A player's recorded score never decreases under any
single command — `createGame`, `submitAnswer`, `startCountdown`,
`nextQuestion`, timer fire, `disconnect`, or a `joinGame` by a different
player — except that a `joinGame` re-issued by that same player overwrites
the entry with a fresh score of 0. -/
theorem score_monotone_without_rejoin (s : ServerState) (c : Command)
    (s' : ServerState) (evs : List Emit) (gid p : String) (g g' : Game)
    (pl pl' : Player)
    (hstep : step s c = some (s', evs))
    (hnojoin : ∀ gid2 un, c ≠ Command.joinGame p gid2 un)
    (hg : mapGet s.activeGames gid = some g)
    (hg' : mapGet s'.activeGames gid = some g')
    (hpl : mapGet g.players p = some pl)
    (hpl' : mapGet g'.players p = some pl') :
    pl.score ≤ pl'.score := by
  rcases step_players s c s' evs gid g' hstep hg' with
    ⟨quiz, hc, hempty⟩ | ⟨g0, hg0, hdisj⟩
  · rw [hempty] at hpl'
    cases hpl'
  · have hgg : g = g0 := Option.some.inj (hg.symm.trans hg0)
    subst hgg
    rcases hdisj with heq | ⟨sid, un, hc, heq⟩ | ⟨sid, i, pl0, hc, hpl0, heq⟩ |
      ⟨sid, hc, heq⟩
    · rw [heq, hpl] at hpl'
      cases hpl'
      exact Nat.le_refl _
    · by_cases hsp : sid = p
      · subst hsp
        exact absurd hc (hnojoin gid un)
      · rw [heq, mapGet_set_ne _ _ _ _ (fun hh => hsp hh.symm), hpl] at hpl'
        cases hpl'
        exact Nat.le_refl _
    · rw [heq, mapGet_set] at hpl'
      by_cases hsp : p = sid
      · rw [if_pos hsp] at hpl'
        subst hsp
        have : pl0 = pl := Option.some.inj (hpl0.symm.trans hpl)
        subst this
        cases hpl'
        exact Nat.le_add_right _ _
      · rw [if_neg hsp, hpl] at hpl'
        cases hpl'
        exact Nat.le_refl _
    · rw [heq] at hpl'
      by_cases hhas : mapHas g.players sid
      · rw [if_pos hhas, mapGet_delete] at hpl'
        by_cases hsp : p = sid
        · rw [if_pos hsp] at hpl'
          cases hpl'
        · rw [if_neg hsp, hpl] at hpl'
          cases hpl'
          exact Nat.le_refl _
      · rw [if_neg hhas, hpl] at hpl'
        cases hpl'
        exact Nat.le_refl _

/-- Witness for the amended C6 theorem: a concrete `nextQuestion` step on
`sampleState` keeps "p1"'s score at 0 ≤ 0. -/
theorem score_monotone_without_rejoin_witness :
    samplePlayer.score ≤ samplePlayer.score :=
  score_monotone_without_rejoin sampleState (Command.nextQuestion "g1")
    (nextQuestionCmd sampleState "g1").1 (nextQuestionCmd sampleState "g1").2
    "g1" "p1"
    sampleGame
    { sampleGame with currentQuestion := 1, answers := [] }
    samplePlayer samplePlayer
    rfl
    (fun gid2 un h => Command.noConfusion h)
    (by decide) (by decide) (by decide) (by decide)

/-- Claim C7, counterexample.  The claim states that the generated session
code never collides with an active session's code, so `createGame` never
overwrites an existing session.  But the handler does `activeGames.set` with
no collision check: in `collideTrace` the session "abc123" holds player "p1"
with score 1000, and a further `createGame` whose generated code is again
"abc123" replaces it with an empty fresh session, destroying that state. -/
theorem createGame_collision_overwrites_counterexample :
    (runCommands initState collideTrace).map
        (fun r => (mapGet r.1.activeGames "abc123").map
          (fun g => mapValues g.players)) =
      some (some [{ id := "p1", username := "alice", score := 1000 }]) ∧
    (runCommands initState
        (collideTrace ++ [Command.createGame "abc123" sampleQuiz2])).map
        (fun r => (mapGet r.1.activeGames "abc123").map
          (fun g => mapValues g.players)) =
      some (some []) := by
  constructor
  · rfl
  · rfl

/-- Claim C7, amended.  `createGame` unconditionally installs at the
generated code a fresh session with empty player map, empty round-answer
record, no timer, and current question index 0 (the position of the first,
not-yet-shown question); the code is 6 random base-36 characters with no
collision check, so a colliding code silently replaces the existing
session. -/
theorem createGame_installs_fresh_session (s : ServerState) (code : String)
    (quiz : Quiz) :
    createGameCmd s code quiz =
      ({ s with
          activeGames :=
            mapSet s.activeGames code
              { players := [], currentQuestion := 0, quiz := quiz,
                answers := [], timer := none } },
       [(Target.caller, Event.gameCreated code)]) ∧
    mapGet (createGameCmd s code quiz).1.activeGames code =
      some { players := [], currentQuestion := 0, quiz := quiz,
             answers := [], timer := none } :=
  ⟨rfl, mapGet_set_self _ _ _⟩

/-- Claim C8, counterexample.  The claim states that `startCountdown` on a
session that is not in the lobby is a silent no-op with no event and no
timer scheduled.  The handler has no state guard: with question 0 live
(after `midGameTrace`), a further `startCountdown` broadcasts
`startCountdown` again, and when its 5-second timeout (handle 2) fires it
re-broadcasts `newQuestion` for the current question and re-arms the round
timer (pending handle 3 replaces handle 1). -/
theorem startCountdown_midgame_not_noop_counterexample :
    (runCommands initState
        (midGameTrace ++ [Command.startCountdown "g1", Command.fire 2])).map
        (fun r => (r.2.drop 4, r.1.pending)) =
      some ([(Target.room "g1", Event.startCountdown),
             (Target.room "g1", Event.newQuestion sampleQ0 10)],
            [(3, TimerKind.reveal "g1" sampleQ0)]) := by
  rfl

/-- Claim C8, amended.  `startCountdown` on any existing session — whatever
state it is in — always broadcasts `startCountdown` and arms the 5-second
countdown timeout; when that timeout fires, if the current question index is
past the last question nothing happens, otherwise `newQuestion` is
re-broadcast for the current question and the round timer restarts via
`startQuestionTimer`. -/
theorem startCountdown_always_broadcasts (s : ServerState) (gid : String)
    (g : Game) (hg : mapGet s.activeGames gid = some g) :
    startCountdownCmd s gid =
      ({ s with
          pending := s.pending ++ [(s.nextHandle, TimerKind.countdown gid)],
          nextHandle := s.nextHandle + 1 },
       [(Target.room gid, Event.startCountdown)]) ∧
    (∀ s2 g2, mapGet s2.activeGames gid = some g2 →
       g2.quiz.questions.length ≤ g2.currentQuestion →
       runCountdown s2 gid = (s2, [])) ∧
    (∀ s2 g2 q, mapGet s2.activeGames gid = some g2 →
       g2.quiz.questions.get? g2.currentQuestion = some q →
       runCountdown s2 gid =
         (startQuestionTimer s2 gid,
          [(Target.room gid, Event.newQuestion q q.timeLimit)])) := by
  refine ⟨?_, ?_, ?_⟩
  · unfold startCountdownCmd
    rw [hg]
  · intro s2 g2 hg2 hlen
    unfold runCountdown
    rw [hg2]
    dsimp only
    rw [List.get?_eq_none.mpr hlen]
  · intro s2 g2 q hg2 hq
    unfold runCountdown
    rw [hg2]
    dsimp only
    rw [hq]

/-- Witness for the amended C8 theorem: the command always broadcasts; at a
game-over state the countdown callback does nothing; at an in-range state it
re-broadcasts the current question and restarts the round timer. -/
theorem startCountdown_always_broadcasts_witness :
    startCountdownCmd sampleState "g1" =
      ({ sampleState with
          pending := [(0, TimerKind.countdown "g1")], nextHandle := 1 },
       [(Target.room "g1", Event.startCountdown)]) ∧
    runCountdown
        { activeGames := [("g1", { sampleGame with currentQuestion := 1 })],
          pending := [], nextHandle := 0 } "g1" =
      ({ activeGames := [("g1", { sampleGame with currentQuestion := 1 })],
         pending := [], nextHandle := 0 }, []) ∧
    runCountdown sampleState2 "g1" =
      (startQuestionTimer sampleState2 "g1",
       [(Target.room "g1", Event.newQuestion sampleQ0 10)]) := by
  have h := startCountdown_always_broadcasts sampleState "g1" sampleGame
    (by decide)
  refine ⟨h.1, h.2.1
    { activeGames := [("g1", { sampleGame with currentQuestion := 1 })],
      pending := [], nextHandle := 0 }
    { sampleGame with currentQuestion := 1 } (by decide) (by decide), ?_⟩
  have h3 := h.2.2 sampleState2 sampleGame2 sampleQ0 (by decide) (by decide)
  exact h3.trans (by rw [show sampleQ0.timeLimit = 10 from rfl])

/-- Claim C3.  First valid answer of a round by a known player: when the
submitted index equals the current question's correct-answer index, the
player's score rises by exactly 1000 and a single `scoreUpdate` with that
player's id and new score is broadcast immediately; otherwise only the
answer is recorded — the players map (hence every score) is untouched and
no event is emitted. -/
theorem submitAnswer_first_scoring (s : ServerState) (gid p : String)
    (i : Int) (g : Game) (pl : Player) (q : Question)
    (hg : mapGet s.activeGames gid = some g)
    (hpl : mapGet g.players p = some pl)
    (hans : mapHas g.answers p = false)
    (hq : g.quiz.questions.get? g.currentQuestion = some q) :
    (i = q.correctAnswer →
      submitAnswerCmd s p gid i =
        some ({ s with
                  activeGames :=
                    mapSet s.activeGames gid
                      { g with
                          answers := mapSet g.answers p i
                          players :=
                            mapSet g.players p
                              { pl with score := pl.score + 1000 } } },
              [(Target.room gid, Event.scoreUpdate p (pl.score + 1000))])) ∧
    (i ≠ q.correctAnswer →
      submitAnswerCmd s p gid i =
        some ({ s with
                  activeGames :=
                    mapSet s.activeGames gid
                      { g with answers := mapSet g.answers p i } },
              [])) := by
  have hnans : ¬(mapHas g.answers p = true) := by
    rw [hans]; exact Bool.false_ne_true
  constructor
  · intro hcorr
    unfold submitAnswerCmd
    rw [hg]
    dsimp only
    rw [hpl]
    dsimp only
    rw [if_neg hnans, hq]
    dsimp only
    rw [if_pos hcorr]
  · intro hcorr
    unfold submitAnswerCmd
    rw [hg]
    dsimp only
    rw [hpl]
    dsimp only
    rw [if_neg hnans, hq]
    dsimp only
    rw [if_neg hcorr]

/-- Witness for C3: in `sampleState` ("p1" known, no recorded answer,
question 0 of `sampleQuiz1` current with correct answer 2), answering 2
yields exactly one `scoreUpdate` to score 1000, and answering 0 yields no
event. -/
theorem submitAnswer_first_scoring_witness :
    submitAnswerCmd sampleState "p1" "g1" 2 =
      some ({ sampleState with
                activeGames :=
                  mapSet sampleState.activeGames "g1"
                    { sampleGame with
                        answers := mapSet sampleGame.answers "p1" 2
                        players :=
                          mapSet sampleGame.players "p1"
                            { samplePlayer with score := 1000 } } },
            [(Target.room "g1", Event.scoreUpdate "p1" 1000)]) ∧
    submitAnswerCmd sampleState "p1" "g1" 0 =
      some ({ sampleState with
                activeGames :=
                  mapSet sampleState.activeGames "g1"
                    { sampleGame with
                        answers := mapSet sampleGame.answers "p1" 0 } },
            []) :=
  ⟨(submitAnswer_first_scoring sampleState "g1" "p1" 2 sampleGame
      samplePlayer sampleQ0 (by decide) (by decide) (by decide)
      (by decide)).1 (by decide),
   (submitAnswer_first_scoring sampleState "g1" "p1" 0 sampleGame
      samplePlayer sampleQ0 (by decide) (by decide) (by decide)
      (by decide)).2 (by decide)⟩

/-- Claim C4.  A second `submitAnswer` in the same round by a player with a
recorded answer is a strict no-op: the handler returns with the state
literally unchanged and emits nothing (the `answers.has` guard fires before
anything is written or scored). -/
theorem submitAnswer_second_ignored (s : ServerState) (gid p : String)
    (i : Int) (g : Game)
    (hg : mapGet s.activeGames gid = some g)
    (hans : mapHas g.answers p = true) :
    submitAnswerCmd s p gid i = some (s, []) := by
  unfold submitAnswerCmd
  rw [hg]
  dsimp only
  cases hpl : mapGet g.players p with
  | none => rfl
  | some player =>
    dsimp only
    rw [if_pos hans]

/-- Witness for C4: with "p1"'s answer 2 already recorded in `sampleGame2`,
a second submission changes nothing and emits nothing. -/
theorem submitAnswer_second_ignored_witness :
    submitAnswerCmd sampleState2 "p1" "g1" 0 = some (sampleState2, []) :=
  submitAnswer_second_ignored sampleState2 "g1" "p1" 0 sampleGame2
    (by decide) (by decide)

/-- Claim C9.  A `joinGame` from a connection whose id is already in the
session's player map is not rejected: the entry is overwritten in place by a
fresh `Player` with the new username and score 0, and `playerJoined` is
broadcast to the room again. -/
theorem joinGame_overwrites_existing_player (s : ServerState)
    (gid p un : String) (g : Game) (plOld : Player)
    (hg : mapGet s.activeGames gid = some g)
    (_hpl : mapGet g.players p = some plOld) :
    joinGameCmd s p gid un =
      ({ s with
          activeGames :=
            mapSet s.activeGames gid
              { g with
                  players :=
                    mapSet g.players p
                      { id := p, username := un, score := 0 } } },
       [(Target.room gid, Event.playerJoined p un 0)]) ∧
    mapGet (mapSet g.players p { id := p, username := un, score := 0 }) p =
      some { id := p, username := un, score := 0 } := by
  constructor
  · unfold joinGameCmd
    rw [hg]
  · exact mapGet_set_self _ _ _

/-- Witness for C9: "p1" (score 1000 after `collideTrace`) rejoins and its
entry is reset to score 0 with `playerJoined` re-broadcast. -/
theorem joinGame_overwrites_existing_player_witness :
    joinGameCmd
        { activeGames :=
            [("g1", { sampleGame with
                players := [("p1", { samplePlayer with score := 1000 })] })],
          pending := [], nextHandle := 0 } "p1" "g1" "bob" =
      ({ activeGames :=
           [("g1", { sampleGame with
               players :=
                 [("p1", { id := "p1", username := "bob", score := 0 })] })],
         pending := [], nextHandle := 0 },
       [(Target.room "g1", Event.playerJoined "p1" "bob" 0)]) ∧
    mapGet [("p1", ({ id := "p1", username := "bob", score := 0 } : Player))]
        "p1" =
      some ({ id := "p1", username := "bob", score := 0 } : Player) := by
  have h := joinGame_overwrites_existing_player
    { activeGames :=
        [("g1", { sampleGame with
            players := [("p1", { samplePlayer with score := 1000 })] })],
      pending := [], nextHandle := 0 } "g1" "p1" "bob"
    { sampleGame with
        players := [("p1", { samplePlayer with score := 1000 })] }
    { samplePlayer with score := 1000 } (by decide) (by decide)
  exact ⟨h.1.trans (by decide), by decide⟩

/-- Claim C2.  An advance on a session with a question active emits exactly
one `revealAnswer` whose `correctAnswer` is the current question's
correct-answer index, whose `correctPlayers` are exactly the recorded round
answers equal to it, and whose `updatedPlayers` is the full roster; it
clears the round-answer record and increments the index, then emits
`gameOver` with the final roster when the index passes the last question and
otherwise `newQuestion` with the next question's content and time limit.
Three forms of the advance: the `nextQuestion` handler (which does all of it
in one step), and the timer path split into the round-timer fire (reveal,
clear, arm the 3-second advance) and the 3-second advance fire (increment,
then `gameOver` or `newQuestion`). -/
theorem advance_reveals_and_progresses :
    (∀ s gid g q, mapGet s.activeGames gid = some g →
       g.quiz.questions.get? g.currentQuestion = some q →
       (nextQuestionCmd s gid).2 =
         (Target.room gid,
          Event.revealAnswer q.correctAnswer
            ((g.answers.filter (fun e => e.2 = q.correctAnswer)).map (·.1))
            (mapValues g.players)) ::
         (match g.quiz.questions.get? (g.currentQuestion + 1) with
          | some q' => [(Target.room gid, Event.newQuestion q' q'.timeLimit)]
          | none =>
            [(Target.room gid, Event.gameOver (mapValues g.players))]) ∧
       ∃ g', mapGet (nextQuestionCmd s gid).1.activeGames gid = some g' ∧
         g'.currentQuestion = g.currentQuestion + 1 ∧ g'.answers = [] ∧
         g'.players = g.players) ∧
    (∀ s hdl gid q g,
       mapGet s.pending hdl = some (TimerKind.reveal gid q) →
       mapGet s.activeGames gid = some g →
       g.quiz.questions.get? g.currentQuestion = some q →
       (fireTimer s hdl).2 =
         [(Target.room gid,
           Event.revealAnswer q.correctAnswer
             ((g.answers.filter (fun e => e.2 = q.correctAnswer)).map (·.1))
             (mapValues g.players))] ∧
       ∃ g', mapGet (fireTimer s hdl).1.activeGames gid = some g' ∧
         g'.answers = [] ∧ g'.players = g.players ∧
         g'.currentQuestion = g.currentQuestion ∧
         (fireTimer s hdl).1.pending =
           mapDelete s.pending hdl ++
             [(s.nextHandle, TimerKind.advance gid)]) ∧
    (∀ s hdl gid g,
       mapGet s.pending hdl = some (TimerKind.advance gid) →
       mapGet s.activeGames gid = some g →
       (fireTimer s hdl).2 =
         (match g.quiz.questions.get? (g.currentQuestion + 1) with
          | some q' => [(Target.room gid, Event.newQuestion q' q'.timeLimit)]
          | none =>
            [(Target.room gid, Event.gameOver (mapValues g.players))]) ∧
       ∃ g', mapGet (fireTimer s hdl).1.activeGames gid = some g' ∧
         g'.currentQuestion = g.currentQuestion + 1 ∧
         g'.players = g.players) := by
  refine ⟨?_, ?_, ?_⟩
  · intro s gid g q hg hq
    unfold nextQuestionCmd
    rw [hg]
    dsimp only
    rw [hq]
    dsimp only
    cases hq2 : g.quiz.questions.get? (g.currentQuestion + 1) with
    | some q2 =>
      dsimp only
      refine ⟨rfl, ?_⟩
      unfold startQuestionTimer
      rw [mapGet_set_self]
      dsimp only
      rw [hq2]
      dsimp only
      exact ⟨_, mapGet_set_self _ _ _, rfl, rfl, rfl⟩
    | none =>
      dsimp only
      exact ⟨rfl, ⟨_, mapGet_set_self _ _ _, rfl, rfl, rfl⟩⟩
  · intro s hdl gid q g hpend hg _hq
    unfold fireTimer
    rw [hpend]
    dsimp only
    unfold runReveal
    dsimp only
    rw [hg]
    dsimp only
    exact ⟨rfl, ⟨_, mapGet_set_self _ _ _, rfl, rfl, rfl, rfl⟩⟩
  · intro s hdl gid g hpend hg
    unfold fireTimer
    rw [hpend]
    dsimp only
    unfold runAdvance
    dsimp only
    rw [hg]
    dsimp only
    cases hq2 : g.quiz.questions.get? (g.currentQuestion + 1) with
    | some q2 =>
      dsimp only
      refine ⟨rfl, ?_⟩
      unfold startQuestionTimer
      rw [mapGet_set_self]
      dsimp only
      rw [hq2]
      dsimp only
      exact ⟨_, mapGet_set_self _ _ _, rfl, rfl⟩
    | none =>
      dsimp only
      exact ⟨rfl, ⟨_, mapGet_set_self _ _ _, rfl, rfl⟩⟩

/-- Witness for C2, on `sampleGame2` (question 0 of the two-question quiz
active, "p1" has answered 2 correctly): the `nextQuestion` handler reveals
and moves on to question 1; a round-timer fire reveals; an advance-timeout
fire moves on to question 1. -/
theorem advance_reveals_and_progresses_witness :
    (nextQuestionCmd sampleState2 "g1").2 =
      [(Target.room "g1",
        Event.revealAnswer 2 ["p1"] [samplePlayer]),
       (Target.room "g1", Event.newQuestion sampleQ1 15)] ∧
    (fireTimer revealPendingState 7).2 =
      [(Target.room "g1",
        Event.revealAnswer 2 ["p1"] [samplePlayer])] ∧
    (fireTimer advancePendingState 7).2 =
      [(Target.room "g1", Event.newQuestion sampleQ1 15)] := by
  have h1 := (advance_reveals_and_progresses.1 sampleState2 "g1" sampleGame2
    sampleQ0 (by decide) (by decide)).1
  have h2 := (advance_reveals_and_progresses.2.1 revealPendingState 7 "g1"
    sampleQ0 sampleGame2 (by decide) (by decide) (by decide)).1
  have h3 := (advance_reveals_and_progresses.2.2 advancePendingState 7 "g1"
    sampleGame2 (by decide) (by decide)).1
  exact ⟨h1.trans (by decide), h2.trans (by decide), h3.trans (by decide)⟩

end Quizzy
